import Mathlib

/-!
Verification of the codec-selection and pipeline-construction logic of
`src/utils/filter_streams.cc` (namespace `ML`, classes `filter_ostream` and
`filter_istream`).

The embedding is shallow and executable:
* a constructed pipeline is a `List Stage` (compressor/decompressor filter
  stages followed by exactly one device stage), mirroring the sequence of
  `push` calls on the `boost::iostreams` filtering stream;
* device interactions are recorded in an explicit `DevOp` trace, in the order
  the source performs them, so that statements about side effects before an
  exception are expressible;
* the file system is an `Env` telling whether `file_sink` / `file_source`
  construction succeeds for a given name and mode, plus the `strerror(errno)`
  text observed on a failed source open;
* a thrown `ML::Exception` is an `Except.error` carrying the message the
  source builds.
-/

deriving instance DecidableEq for Except

namespace FilterStreams

/-- The compression codecs supported by the stream implementation. -/
inductive Codec
  | gzip
  | bzip2
  | lzma
deriving DecidableEq, Repr

/-- The open mode is forwarded verbatim to the underlying device and never
inspected by the stream logic; an opaque numeric rendering of the
`std::ios_base::openmode` flag set suffices. -/
abbrev Mode := Nat

/-- One stage of a constructed pipeline, in the order the source pushes them
onto the `filtering_stream`.  A compressor built with `level == -1` uses the
codec default, rendered as `none`. -/
inductive Stage
  | compressor (c : Codec) (level : Option Int)
  | decompressor (c : Codec)
  | sinkStdout
  | sinkFile (name : List Char) (mode : Mode)
  | sinkFd (fd : Int) (closesHandle : Bool)
  | sourceStdin
  | sourceFile (name : List Char) (mode : Mode)
deriving DecidableEq, Repr

/-- A device interaction performed during `open`, recorded in execution
order.  Constructing a `file_sink` or `file_source` touches the named file
even when the open then fails. -/
inductive DevOp
  | bindStdout
  | bindStdin
  | bindFd (fd : Int)
  | openFileSink (name : List Char) (mode : Mode)
  | openFileSource (name : List Char) (mode : Mode)
deriving DecidableEq, Repr

/-- A thrown `ML::Exception`, split by the two throw sites: the unknown
compression name check and the failed device open.  The payload is the
message the source builds at the throw site. -/
inductive OpenErr
  | unknownCodec (message : List Char)
  | openFailed (message : List Char)
deriving DecidableEq, Repr

/-- The environment of the open calls: whether constructing a
`file_sink` / `file_source` on a name and mode yields an open device, and the
`strerror(errno)` text read after a failed source open. -/
structure Env where
  fileSinkOpens : List Char → Mode → Bool
  fileSourceOpens : List Char → Mode → Bool
  errnoText : List Char

/-- An environment in which every file open succeeds. -/
def alwaysOpensEnv : Env :=
  ⟨fun _ _ => true, fun _ _ => true, []⟩

/-- An environment in which every file open fails, with the classic errno
text. -/
def neverOpensEnv : Env :=
  ⟨fun _ _ => false, fun _ _ => false, "No such file or directory".toList⟩

/-- `occursAt str what i` holds when `what` occurs in `str` starting at
index `i` (the occurrence must fit inside `str`). -/
def occursAt (str what : List Char) (i : Nat) : Bool :=
  decide (i + what.length ≤ str.length) && (str.drop i).take what.length == what

/-- Search for an occurrence of `what` in `str` starting from index `n` and
scanning downward, as `std::string::rfind` does from its default position. -/
def rfindFrom (str what : List Char) : Nat → Option Nat
  | 0 => if occursAt str what 0 then some 0 else none
  | i + 1 => if occursAt str what (i + 1) then some (i + 1) else rfindFrom str what i

/-- `std::string::rfind(what)`: the highest index at which `what` occurs in
`str`, or `none` for `npos`. -/
def rfind (str what : List Char) : Option Nat :=
  rfindFrom str what str.length

/-- The file-local helper `ends_with(str, what)` of the source: it calls
`str.rfind(what)` and accepts when the result is not `npos` and equals
`str.size() - what.size()` (the unsigned subtraction is only reached when an
occurrence was found, so it never wraps on the accepted path). -/
def ends_with (str what : List Char) : Bool :=
  match rfind str what with
  | none => false
  | some r => r == str.length - what.length

/-- The gzip suffix test shared by both directions:
`ends_with(file, ".gz") || ends_with(file, ".gz~")`. -/
def gzSuffix (file : List Char) : Bool :=
  ends_with file ".gz".toList || ends_with file ".gz~".toList

/-- The bzip2 suffix test:
`ends_with(file, ".bz2") || ends_with(file, ".bz2~")`. -/
def bz2Suffix (file : List Char) : Bool :=
  ends_with file ".bz2".toList || ends_with file ".bz2~".toList

/-- The lzma suffix test:
`ends_with(file, ".xz") || ends_with(file, ".xz~")`. -/
def xzSuffix (file : List Char) : Bool :=
  ends_with file ".xz".toList || ends_with file ".xz~".toList

/-- The name normalization both open paths start with:
`if (file == "") file = "/dev/null";`. -/
def normalizeName (file_ : List Char) : List Char :=
  if file_ == [] then "/dev/null".toList else file_

/-- `push(xxx_compressor())` when `level == -1`, else
`push(xxx_compressor(level))`. -/
def pushCompressor (c : Codec) (level : Int) : Stage :=
  if level == -1 then .compressor c none else .compressor c (some level)

/-- The compressor-selection chain of `filter_ostream::open(file, ...)`
(lines 93-115): explicit names `gz`/`gzip`, `bz2`/`bzip2`, `lzma`/`xz`, or
suffix inference when the explicit name is empty; any other name that is not
empty and not `none` throws `unknown filter compression`. -/
def outCodecStages (compression file : List Char) (level : Int) :
    Except OpenErr (List Stage) :=
  if compression == "gz".toList || compression == "gzip".toList
      || (compression == [] && gzSuffix file) then
    .ok [pushCompressor .gzip level]
  else if compression == "bz2".toList || compression == "bzip2".toList
      || (compression == [] && bz2Suffix file) then
    .ok [pushCompressor .bzip2 level]
  else if compression == "lzma".toList || compression == "xz".toList
      || (compression == [] && xzSuffix file) then
    .ok [pushCompressor .lzma level]
  else if compression != [] && compression != "none".toList then
    .error (.unknownCodec ("unknown filter compression ".toList ++ compression))
  else
    .ok []

/-- `filter_ostream::open(const std::string &, mode, compression, level)`:
normalize the name, run the compressor-selection chain, then attach the sink
(`std::cout` for `"-"`, else a `file_sink`, throwing when it is not open).
The second component is the trace of device interactions performed. -/
def openOutFile (env : Env) (file_ : List Char) (mode : Mode)
    (compression : List Char) (level : Int) :
    Except OpenErr (List Stage) × List DevOp :=
  match outCodecStages compression (normalizeName file_) level with
  | .error e => (.error e, [])
  | .ok filters =>
    if normalizeName file_ == "-".toList then
      (.ok (filters ++ [Stage.sinkStdout]), [DevOp.bindStdout])
    else if env.fileSinkOpens (normalizeName file_) mode then
      (.ok (filters ++ [Stage.sinkFile (normalizeName file_) mode]),
       [DevOp.openFileSink (normalizeName file_) mode])
    else
      (.error (.openFailed ("couldn't open file ".toList ++ normalizeName file_)),
       [DevOp.openFileSink (normalizeName file_) mode])

/-- The compressor-selection chain of `filter_ostream::open(int fd, ...)`
(lines 144-160): identical to the file-name chain except that there is no
file name, hence no suffix-inference disjuncts. -/
def fdCodecStages (compression : List Char) (level : Int) :
    Except OpenErr (List Stage) :=
  if compression == "gz".toList || compression == "gzip".toList then
    .ok [pushCompressor .gzip level]
  else if compression == "bz2".toList || compression == "bzip2".toList then
    .ok [pushCompressor .bzip2 level]
  else if compression == "lzma".toList || compression == "xz".toList then
    .ok [pushCompressor .lzma level]
  else if compression != [] && compression != "none".toList then
    .error (.unknownCodec ("unknown filter compression ".toList ++ compression))
  else
    .ok []

/-- `filter_ostream::open(int fd, mode, compression, level)`: the fd codec
chain, then a `file_descriptor_sink(fd, never_close_handle)` (the modern
Boost branch of the version conditional), which does not close the caller
descriptor on teardown.  The mode parameter is accepted and unused, as in
the source. -/
def openOutFd (fd : Int) (_mode : Mode) (compression : List Char) (level : Int) :
    Except OpenErr (List Stage) × List DevOp :=
  match fdCodecStages compression level with
  | .error e => (.error e, [])
  | .ok filters => (.ok (filters ++ [Stage.sinkFd fd false]), [DevOp.bindFd fd])

/-- The descriptor-based constructor
`filter_ostream::filter_ostream(int fd, mode, compression, level)`: its body
is `open(fd, mode);`, so the compression and level arguments it received are
not forwarded and the defaulted `open` call runs with compression `""` and
level `-1`. -/
def filterOstreamCtorFd (fd : Int) (mode : Mode)
    (_compression : List Char) (_level : Int) :
    Except OpenErr (List Stage) × List DevOp :=
  openOutFd fd mode [] (-1)

/-- The decompressor stages `filter_istream::open` pushes (lines 221-227):
one per matching suffix family, in the fixed order gzip, bzip2, lzma. -/
def inFilters (file : List Char) : List Stage :=
  (if gzSuffix file then [Stage.decompressor .gzip] else [])
    ++ (if bz2Suffix file then [Stage.decompressor .bzip2] else [])
    ++ (if xzSuffix file then [Stage.decompressor .lzma] else [])

/-- `filter_istream::open(file, mode)`: normalize the name, push the
suffix-inferred decompressors, then attach the source (`std::cin` for `"-"`,
else a `file_source`, throwing with the original caller-supplied name and
the `strerror(errno)` text when it is not open). -/
def openInFile (env : Env) (file_ : List Char) (mode : Mode) :
    Except OpenErr (List Stage) × List DevOp :=
  if normalizeName file_ == "-".toList then
    (.ok (inFilters (normalizeName file_) ++ [Stage.sourceStdin]), [DevOp.bindStdin])
  else if env.fileSourceOpens (normalizeName file_) mode then
    (.ok (inFilters (normalizeName file_) ++ [Stage.sourceFile (normalizeName file_) mode]),
     [DevOp.openFileSource (normalizeName file_) mode])
  else
    (.error (.openFailed ("stream open failed for file ".toList ++ file_
        ++ ": ".toList ++ env.errnoText)),
     [DevOp.openFileSource (normalizeName file_) mode])

/-- The observable stream state across an output `open` call: the member
`stream` holds the installed pipeline; on a throw the member and the active
buffer are left untouched (the half-built local `new_stream` is destroyed,
`stream.reset` is never reached).  Returns the new member value, the thrown
exception if any, and the device trace. -/
def ostreamOpenFileState (env : Env) (prior : Option (List Stage))
    (file_ : List Char) (mode : Mode) (compression : List Char) (level : Int) :
    Option (List Stage) × Option OpenErr × List DevOp :=
  match openOutFile env file_ mode compression level with
  | (.ok p, ops) => (some p, none, ops)
  | (.error e, ops) => (prior, some e, ops)

/-- The observable stream state across an input `open` call, with the same
member semantics as the output direction. -/
def istreamOpenState (env : Env) (prior : Option (List Stage))
    (file_ : List Char) (mode : Mode) :
    Option (List Stage) × Option OpenErr × List DevOp :=
  match openInFile env file_ mode with
  | (.ok p, ops) => (some p, none, ops)
  | (.error e, ops) => (prior, some e, ops)

/-- The three condition bits of a standard stream state. -/
structure StreamFlags where
  failbit : Bool
  badbit : Bool
  eofbit : Bool
deriving DecidableEq, Repr

/-- `std::ios::fail()`: true when failbit or badbit is set. -/
def failFlag (f : StreamFlags) : Bool := f.failbit || f.badbit

/-- `std::ios::bad()`: true when badbit is set. -/
def badFlag (f : StreamFlags) : Bool := f.badbit

/-- `std::ios::eof()`: true when eofbit is set. -/
def eofFlag (f : StreamFlags) : Bool := f.eofbit

/-- The stream conversion to bool used by `if (*this)`: `!fail()`. -/
def streamGood (f : StreamFlags) : Bool := !(failFlag f)

/-- `filter_ostream::status()` (lines 182-191): `"good"` when the stream
converts to true, else `format("%s%s%s", fail() ? " fail" : "",
bad() ? " bad" : "", eof() ? " eof" : "")`. -/
def status (f : StreamFlags) : List Char :=
  if streamGood f then "good".toList
  else
    (if failFlag f then " fail".toList else [])
      ++ (if badFlag f then " bad".toList else [])
      ++ (if eofFlag f then " eof".toList else [])

/-- Modelled from the spec: the status string as claim C5 describes it, for
comparison with the implemented `status` — `"good"` when no flag is set,
otherwise the names of the set flags in the fixed order fail, bad, eof,
joined by single spaces with no leading or trailing space. -/
def claimedStatus (f : StreamFlags) : List Char :=
  let parts : List (List Char) :=
    (if f.failbit then ["fail".toList] else [])
      ++ (if f.badbit then ["bad".toList] else [])
      ++ (if f.eofbit then ["eof".toList] else [])
  if parts = [] then "good".toList else List.intercalate " ".toList parts

/-- Whether a stage is a compressor. -/
def isCompressor : Stage → Bool
  | .compressor _ _ => true
  | _ => false

/-- Whether a stage is a decompressor. -/
def isDecompressor : Stage → Bool
  | .decompressor _ => true
  | _ => false

/-- Whether a stage is a filter (compressor or decompressor) rather than a
device. -/
def isFilterStage (s : Stage) : Bool :=
  isCompressor s || isDecompressor s

/-- Whether a stage is a device endpoint. -/
def isDeviceStage : Stage → Bool
  | .sinkStdout => true
  | .sinkFile _ _ => true
  | .sinkFd _ _ => true
  | .sourceStdin => true
  | .sourceFile _ _ => true
  | _ => false

/-- A fully constructed pipeline: zero or more filter stages followed by
exactly one device stage. -/
def wellFormed (p : List Stage) : Bool :=
  p.dropLast.all isFilterStage
    && (match p.getLast? with
        | some s => isDeviceStage s
        | none => false)

/-- The table of suffixes recognized by inference, over both directions. -/
def suffixTable : List (List Char) :=
  [".gz".toList, ".gz~".toList, ".bz2".toList, ".bz2~".toList,
   ".xz".toList, ".xz~".toList]

/-- A result returned by the downward search satisfies the occurrence test. -/
theorem rfindFrom_occurs (str what : List Char) :
    ∀ n r, rfindFrom str what n = some r → occursAt str what r = true := by
  intro n
  induction n with
  | zero =>
    intro r h
    simp only [rfindFrom] at h
    split at h
    · injection h with h2
      subst h2
      assumption
    · cases h
  | succ k ih =>
    intro r h
    simp only [rfindFrom] at h
    split at h
    · injection h with h2
      subst h2
      assumption
    · exact ih r h

/-- An index passing the occurrence test is at most
`str.length - what.length`. -/
theorem occursAt_le (str what : List Char) (i : Nat)
    (h : occursAt str what i = true) : i ≤ str.length - what.length := by
  unfold occursAt at h
  rw [Bool.and_eq_true, decide_eq_true_iff] at h
  exact Nat.le_sub_of_add_le h.1

/-- When `what` occurs at the highest admissible index
`str.length - what.length`, the downward search started anywhere at or above
that index returns exactly that index. -/
theorem rfindFrom_found (str what : List Char) :
    ∀ n, str.length - what.length ≤ n →
      occursAt str what (str.length - what.length) = true →
      rfindFrom str what n = some (str.length - what.length) := by
  intro n
  induction n with
  | zero =>
    intro hle hocc
    have h0 : str.length - what.length = 0 := Nat.le_zero.mp hle
    rw [h0] at hocc ⊢
    simp only [rfindFrom, hocc]
    rfl
  | succ k ih =>
    intro hle hocc
    cases hb : occursAt str what (k + 1) with
    | true =>
      have h1 : k + 1 ≤ str.length - what.length := occursAt_le str what (k + 1) hb
      have h2 : str.length - what.length = k + 1 := Nat.le_antisymm hle h1
      rw [h2]
      simp only [rfindFrom, h2 ▸ hocc]
      rfl
    | false =>
      have hne : str.length - what.length ≠ k + 1 := by
        intro hc
        rw [hc] at hocc
        rw [hocc] at hb
        cases hb
      have hle2 : str.length - what.length ≤ k :=
        Nat.lt_succ_iff.mp (Nat.lt_of_le_of_ne hle hne)
      simp only [rfindFrom, hb, Bool.false_eq_true, if_false]
      exact ih hle2 hocc

/-- Correctness of the `rfind`-based suffix test of the source: it accepts
exactly when `what` is a suffix of `str`, for every pair of strings. -/
theorem ends_with_iff (str what : List Char) :
    ends_with str what = true ↔ what <:+ str := by
  constructor
  · intro h
    unfold ends_with rfind at h
    cases hr : rfindFrom str what str.length with
    | none => rw [hr] at h; cases h
    | some r =>
      rw [hr] at h
      have hocc := rfindFrom_occurs str what str.length r hr
      have hrEq : r = str.length - what.length := by
        rwa [beq_iff_eq] at h
      subst hrEq
      unfold occursAt at hocc
      rw [Bool.and_eq_true, decide_eq_true_iff, beq_iff_eq] at hocc
      obtain ⟨hlen, htake⟩ := hocc
      have hWle : what.length ≤ str.length := by omega
      have hdroplen : (str.drop (str.length - what.length)).length = what.length := by
        rw [List.length_drop]
        omega
      have hdrop : str.drop (str.length - what.length) = what :=
        (List.take_of_length_le (le_of_eq hdroplen)).symm.trans htake
      exact hdrop ▸ List.drop_suffix _ _
  · intro h
    have hWle : what.length ≤ str.length := h.length_le
    have hdrop : what = str.drop (str.length - what.length) :=
      List.suffix_iff_eq_drop.mp h
    have hdroplen : (str.drop (str.length - what.length)).length = what.length := by
      rw [List.length_drop]
      omega
    have hocc : occursAt str what (str.length - what.length) = true := by
      unfold occursAt
      rw [Bool.and_eq_true, decide_eq_true_iff, beq_iff_eq]
      refine ⟨by omega, ?_⟩
      exact (List.take_of_length_le (le_of_eq hdroplen)).trans hdrop.symm
    unfold ends_with rfind
    rw [rfindFrom_found str what str.length (Nat.sub_le _ _) hocc]
    simp

/-- Two suffixes of the same string are comparable; if neither of two given
strings is a suffix of the other, they cannot both be suffixes of one
string. -/
theorem not_suffix_both (s1 s2 name : List Char)
    (h1 : s1 <:+ name) (h2 : s2 <:+ name)
    (h12 : s1 ≠ s2.drop (s2.length - s1.length))
    (h21 : s2 ≠ s1.drop (s1.length - s2.length)) : False := by
  rcases List.suffix_or_suffix_of_suffix h1 h2 with h | h
  · exact h12 (List.suffix_iff_eq_drop.mp h)
  · exact h21 (List.suffix_iff_eq_drop.mp h)

/-- No name matches both the gzip and the bzip2 suffix family. -/
theorem gz_bz2_exclusive (name : List Char) :
    ¬(gzSuffix name = true ∧ bz2Suffix name = true) := by
  rintro ⟨hg, hb⟩
  unfold gzSuffix at hg
  unfold bz2Suffix at hb
  rw [Bool.or_eq_true] at hg hb
  rcases hg with hg | hg <;> rcases hb with hb | hb <;>
    exact not_suffix_both _ _ name ((ends_with_iff ..).mp hg)
      ((ends_with_iff ..).mp hb) (by decide) (by decide)

/-- No name matches both the gzip and the lzma suffix family. -/
theorem gz_xz_exclusive (name : List Char) :
    ¬(gzSuffix name = true ∧ xzSuffix name = true) := by
  rintro ⟨hg, hx⟩
  unfold gzSuffix at hg
  unfold xzSuffix at hx
  rw [Bool.or_eq_true] at hg hx
  rcases hg with hg | hg <;> rcases hx with hx | hx <;>
    exact not_suffix_both _ _ name ((ends_with_iff ..).mp hg)
      ((ends_with_iff ..).mp hx) (by decide) (by decide)

/-- No name matches both the bzip2 and the lzma suffix family. -/
theorem bz2_xz_exclusive (name : List Char) :
    ¬(bz2Suffix name = true ∧ xzSuffix name = true) := by
  rintro ⟨hb, hx⟩
  unfold bz2Suffix at hb
  unfold xzSuffix at hx
  rw [Bool.or_eq_true] at hb hx
  rcases hb with hb | hb <;> rcases hx with hx | hx <;>
    exact not_suffix_both _ _ name ((ends_with_iff ..).mp hb)
      ((ends_with_iff ..).mp hx) (by decide) (by decide)

/-- At most one decompressor stage is ever pushed by the input direction. -/
theorem inFilters_length_le_one (file : List Char) :
    (inFilters file).length ≤ 1 := by
  unfold inFilters
  cases hg : gzSuffix file <;> cases hb : bz2Suffix file <;> cases hx : xzSuffix file
  · simp
  · simp
  · simp
  · exact absurd ⟨hb, hx⟩ (bz2_xz_exclusive file)
  · simp
  · exact absurd ⟨hg, hx⟩ (gz_xz_exclusive file)
  · exact absurd ⟨hg, hb⟩ (gz_bz2_exclusive file)
  · exact absurd ⟨hg, hb⟩ (gz_bz2_exclusive file)

/-- Every stage pushed by the input suffix inference is a decompressor. -/
theorem inFilters_all_decompressor (file : List Char) :
    (inFilters file).all isDecompressor = true := by
  unfold inFilters
  cases gzSuffix file <;> cases bz2Suffix file <;> cases xzSuffix file <;> rfl

/-- Every stage list the output codec chain accepts consists of filter
stages only. -/
theorem outCodecStages_filters (compression file : List Char) (level : Int)
    (fs : List Stage) (h : outCodecStages compression file level = .ok fs) :
    fs.all isFilterStage = true := by
  unfold outCodecStages at h
  split at h
  · injection h with h2
    subst h2
    unfold pushCompressor
    cases level == -1 <;> rfl
  · split at h
    · injection h with h2
      subst h2
      unfold pushCompressor
      cases level == -1 <;> rfl
    · split at h
      · injection h with h2
        subst h2
        unfold pushCompressor
        cases level == -1 <;> rfl
      · split at h
        · cases h
        · injection h with h2
          subst h2
          rfl

/-- Appending one device stage to filter stages yields a fully constructed
pipeline. -/
theorem wellFormed_concat (fs : List Stage) (d : Stage)
    (hf : fs.all isFilterStage = true) (hd : isDeviceStage d = true) :
    wellFormed (fs ++ [d]) = true := by
  unfold wellFormed
  rw [List.dropLast_concat, List.getLast?_concat, hf]
  show (true && isDeviceStage d) = true
  rw [hd]
  rfl

/-- A nonempty name is left unchanged by the normalization. -/
theorem normalizeName_of_ne (file : List Char) (h : file ≠ []) :
    normalizeName file = file := by
  unfold normalizeName
  rw [beq_eq_false_iff_ne.mpr h]
  rfl

/-- Every pipeline the output file open installs is fully constructed. -/
theorem openOutFile_ok_wellFormed (env : Env) (file : List Char) (mode : Mode)
    (comp : List Char) (level : Int) (p : List Stage) (ops : List DevOp)
    (h : openOutFile env file mode comp level = (.ok p, ops)) :
    wellFormed p = true := by
  unfold openOutFile at h
  cases hc : outCodecStages comp (normalizeName file) level with
  | error e =>
    simp only [hc] at h
    exact Except.noConfusion (congrArg Prod.fst h)
  | ok fs =>
    have hfs := outCodecStages_filters comp (normalizeName file) level fs hc
    simp only [hc] at h
    split at h
    · rw [Prod.mk.injEq] at h
      obtain ⟨h1, h3⟩ := h
      injection h1 with h2
      subst h2
      exact wellFormed_concat fs Stage.sinkStdout hfs rfl
    · split at h
      · rw [Prod.mk.injEq] at h
        obtain ⟨h1, h3⟩ := h
        injection h1 with h2
        subst h2
        exact wellFormed_concat fs (Stage.sinkFile (normalizeName file) mode) hfs rfl
      · rw [Prod.mk.injEq] at h
        exact Except.noConfusion h.1

/-- Every pipeline the input open installs is fully constructed. -/
theorem openInFile_ok_wellFormed (env : Env) (file : List Char) (mode : Mode)
    (p : List Stage) (ops : List DevOp)
    (h : openInFile env file mode = (.ok p, ops)) :
    wellFormed p = true := by
  have hfs : (inFilters (normalizeName file)).all isFilterStage = true := by
    have h1 := inFilters_all_decompressor (normalizeName file)
    rw [List.all_eq_true] at h1 ⊢
    intro x hx
    have h2 := h1 x hx
    unfold isFilterStage
    rw [h2, Bool.or_true]
  unfold openInFile at h
  split at h
  · rw [Prod.mk.injEq] at h
    obtain ⟨h1, h3⟩ := h
    injection h1 with h2
    subst h2
    exact wellFormed_concat _ Stage.sourceStdin hfs rfl
  · split at h
    · rw [Prod.mk.injEq] at h
      obtain ⟨h1, h3⟩ := h
      injection h1 with h2
      subst h2
      exact wellFormed_concat _ (Stage.sourceFile (normalizeName file) mode) hfs rfl
    · rw [Prod.mk.injEq] at h
      exact Except.noConfusion h.1

/-- Claim C6: the suffix test matches exactly on the tail of the file name —
for every name and every suffix in the table, `ends_with` accepts iff the
suffix is a suffix of the name; in particular `archive.gz~` and
`archive.tar.gz` select gzip by inference while `archive.gzip` does not. -/
theorem c6_suffix_test_exact :
    (∀ (name what : List Char), what ∈ suffixTable →
        (ends_with name what = true ↔ what <:+ name))
    ∧ gzSuffix ("archive.gz~".toList) = true
    ∧ gzSuffix ("archive.tar.gz".toList) = true
    ∧ gzSuffix ("archive.gzip".toList) = false := by
  refine ⟨fun name what _ => ends_with_iff name what, ?_, ?_, ?_⟩ <;> decide

/-- Witness for C6 at a concrete name and table suffix. -/
theorem c6_suffix_test_exact_witness :
    (".gz".toList : List Char) <:+ "archive.tar.gz".toList :=
  (c6_suffix_test_exact.1 ("archive.tar.gz".toList) (".gz".toList)
    (by decide)).mp (by decide)

/-- Claim C10: no file name matches two distinct input suffix families at
once, so every pipeline built by the input open holds at most one
decompressor stage and the stacking branch is unreachable. -/
theorem c10_at_most_one_decompressor :
    (∀ name : List Char,
        ¬(gzSuffix name = true ∧ bz2Suffix name = true)
        ∧ ¬(gzSuffix name = true ∧ xzSuffix name = true)
        ∧ ¬(bz2Suffix name = true ∧ xzSuffix name = true))
    ∧ (∀ (env : Env) (name : List Char) (mode : Mode) (p : List Stage)
          (ops : List DevOp), openInFile env name mode = (.ok p, ops) →
        (p.filter isDecompressor).length ≤ 1) := by
  constructor
  · intro name
    exact ⟨gz_bz2_exclusive name, gz_xz_exclusive name, bz2_xz_exclusive name⟩
  · intro env name mode p ops h
    have key : ∀ d : Stage, isDeviceStage d = true →
        ((inFilters (normalizeName name) ++ [d]).filter isDecompressor).length ≤ 1 := by
      intro d hd
      rw [List.filter_append]
      have hdev : [d].filter isDecompressor = [] := by
        cases d <;> first | rfl | cases hd
      rw [hdev, List.append_nil]
      calc ((inFilters (normalizeName name)).filter isDecompressor).length
          ≤ (inFilters (normalizeName name)).length := List.length_filter_le _ _
        _ ≤ 1 := inFilters_length_le_one _
    unfold openInFile at h
    split at h
    · rw [Prod.mk.injEq] at h
      obtain ⟨h1, h3⟩ := h
      injection h1 with h2
      subst h2
      exact key Stage.sourceStdin rfl
    · split at h
      · rw [Prod.mk.injEq] at h
        obtain ⟨h1, h3⟩ := h
        injection h1 with h2
        subst h2
        exact key (Stage.sourceFile (normalizeName name) mode) rfl
      · rw [Prod.mk.injEq] at h
        exact Except.noConfusion h.1

/-- Witness for C10: the exclusivity at a concrete name, and the
decompressor count of a concretely built input pipeline. -/
theorem c10_at_most_one_decompressor_witness :
    bz2Suffix ("x.gz".toList) = false
    ∧ (([Stage.decompressor Codec.gzip,
          Stage.sourceFile ("a.gz".toList) 0]).filter isDecompressor).length ≤ 1 := by
  constructor
  · cases hb : bz2Suffix ("x.gz".toList) with
    | false => rfl
    | true =>
      exact absurd ⟨by decide, hb⟩ (c10_at_most_one_decompressor.1 ("x.gz".toList)).1
  · exact c10_at_most_one_decompressor.2 alwaysOpensEnv ("a.gz".toList) 0 _ _ rfl

/-- Claim C4 counterexample: with empty explicit compression and file name
`out.gz`, the output codec chain pushes a gzip compressor, not none. -/
theorem c4_rule1_counterexample :
    outCodecStages [] ("out.gz".toList) (-1) = .ok [Stage.compressor .gzip none]
    ∧ (.ok [Stage.compressor .gzip none] : Except OpenErr (List Stage))
        ≠ .ok ([] : List Stage) := by
  exact ⟨rfl, by decide⟩

/-- Claim C4 as amended: for output, an explicit `none` yields no compressor
stage for every file name; an empty explicit name yields no compressor stage
only when the file name matches no recognized suffix family. -/
theorem c4_rule1_amended (file : List Char) (level : Int) :
    outCodecStages ("none".toList) file level = .ok []
    ∧ (gzSuffix file = false → bz2Suffix file = false → xzSuffix file = false →
        outCodecStages [] file level = .ok []) := by
  constructor
  · rfl
  · intro h1 h2 h3
    unfold outCodecStages
    rw [h1, h2, h3]
    rfl

/-- Witness for the amended C4 at a concrete suffix-free name. -/
theorem c4_rule1_amended_witness :
    outCodecStages [] ("plain.txt".toList) 7 = .ok [] :=
  (c4_rule1_amended ("plain.txt".toList) 7).2 (by decide) (by decide) (by decide)

/-- Claim C3: explicit codec selection takes precedence over suffix
inference on output — `out.gz` with empty compression selects one gzip
compressor stage, while the same name with compression `none` selects no
compressor and opens without error. -/
theorem c3_explicit_over_suffix (env : Env) (mode : Mode) (level : Int) :
    outCodecStages [] ("out.gz".toList) level = .ok [pushCompressor .gzip level]
    ∧ outCodecStages ("none".toList) ("out.gz".toList) level = .ok []
    ∧ (env.fileSinkOpens ("out.gz".toList) mode = true →
        openOutFile env ("out.gz".toList) mode ("none".toList) level
          = (.ok [Stage.sinkFile ("out.gz".toList) mode],
             [DevOp.openFileSink ("out.gz".toList) mode])) := by
  refine ⟨rfl, rfl, fun h => ?_⟩
  unfold openOutFile
  have hn : normalizeName ("out.gz".toList) = "out.gz".toList := rfl
  rw [hn, h]
  rfl

/-- Witness for C3 in an environment where the file opens. -/
theorem c3_explicit_over_suffix_witness :
    openOutFile alwaysOpensEnv ("out.gz".toList) 0 ("none".toList) (-1)
      = (.ok [Stage.sinkFile ("out.gz".toList) 0],
         [DevOp.openFileSink ("out.gz".toList) 0]) :=
  (c3_explicit_over_suffix alwaysOpensEnv 0 (-1)).2.2 rfl

/-- Claim C2: for every file name, mode, level and environment, opening for
output with an explicit compression name outside the recognized vocabulary
throws the unknown-codec exception, and the device trace is empty — no file
is created or truncated. -/
theorem c2_unknown_codec (env : Env) (file : List Char) (mode : Mode)
    (level : Int) (comp : List Char)
    (h : comp ∉ ([[], "none".toList, "gz".toList, "gzip".toList, "bz2".toList,
        "bzip2".toList, "lzma".toList, "xz".toList] : List (List Char))) :
    openOutFile env file mode comp level
      = (.error (.unknownCodec ("unknown filter compression ".toList ++ comp)), []) := by
  simp only [List.mem_cons, not_or] at h
  obtain ⟨h1, h2, h3, h4, h5, h6, h7, h8, -⟩ := h
  have b1 : (comp == ([] : List Char)) = false := beq_eq_false_iff_ne.mpr h1
  have b2 : (comp == "none".toList) = false := beq_eq_false_iff_ne.mpr h2
  have b3 : (comp == "gz".toList) = false := beq_eq_false_iff_ne.mpr h3
  have b4 : (comp == "gzip".toList) = false := beq_eq_false_iff_ne.mpr h4
  have b5 : (comp == "bz2".toList) = false := beq_eq_false_iff_ne.mpr h5
  have b6 : (comp == "bzip2".toList) = false := beq_eq_false_iff_ne.mpr h6
  have b7 : (comp == "lzma".toList) = false := beq_eq_false_iff_ne.mpr h7
  have b8 : (comp == "xz".toList) = false := beq_eq_false_iff_ne.mpr h8
  unfold openOutFile outCodecStages
  simp only [b1, b2, b3, b4, b5, b6, b7, b8, Bool.false_and, Bool.or_false,
    Bool.false_or, bne, Bool.not_false, Bool.true_and, Bool.false_eq_true,
    if_false, if_true]

/-- Witness for C2 at the compression name `bogus` of the spec example. -/
theorem c2_unknown_codec_witness :
    openOutFile alwaysOpensEnv ("out.txt".toList) 0 ("bogus".toList) (-1)
      = (.error (.unknownCodec ("unknown filter compression bogus".toList)), []) :=
  c2_unknown_codec alwaysOpensEnv ("out.txt".toList) 0 (-1) ("bogus".toList)
    (by decide)

/-- Claim C5 counterexample: with only the fail flag set the implementation
returns a string with a leading space, not the space-joined form the claim
states; and with only the eof flag set the implementation returns `good`
while the claim states `eof`. -/
theorem c5_status_counterexample :
    status ⟨true, false, false⟩ = " fail".toList
    ∧ claimedStatus ⟨true, false, false⟩ = "fail".toList
    ∧ status ⟨true, false, false⟩ ≠ claimedStatus ⟨true, false, false⟩
    ∧ status ⟨false, false, true⟩ = "good".toList
    ∧ claimedStatus ⟨false, false, true⟩ = "eof".toList
    ∧ status ⟨false, false, true⟩ ≠ claimedStatus ⟨false, false, true⟩ := by
  decide

/-- Claim C5 as amended: `status` returns `good` exactly when neither the
fail nor the bad flag is set (so an eof-only stream still reports `good`);
otherwise it returns the concatenation of the fragment ` fail` (always
present then, since `fail()` holds whenever the stream is not good) followed
by ` bad` if bad is set and ` eof` if eof is set, each fragment carrying its
leading space. -/
theorem c5_status_amended (f : StreamFlags) :
    (status f = "good".toList ↔ failFlag f = false)
    ∧ (failFlag f = true →
        status f = " fail".toList
          ++ (if f.badbit then " bad".toList else [])
          ++ (if f.eofbit then " eof".toList else [])) := by
  obtain ⟨a, b, c⟩ := f
  cases a <;> cases b <;> cases c <;> exact ⟨by decide, by decide⟩

/-- Witness for the amended C5 with all three flags set. -/
theorem c5_status_amended_witness :
    status ⟨true, true, true⟩ = " fail bad eof".toList :=
  (c5_status_amended ⟨true, true, true⟩).2 rfl

/-- Claim C7 counterexample: a failing open on a stream holding a prior
pipeline leaves that prior pipeline installed — it is not torn down to an
empty state as the claim says. -/
theorem c7_atomicity_counterexample :
    ostreamOpenFileState alwaysOpensEnv (some [Stage.sinkStdout])
        ("x.txt".toList) 0 ("bogus".toList) (-1)
      = (some [Stage.sinkStdout],
         some (.unknownCodec ("unknown filter compression bogus".toList)), [])
    ∧ (some [Stage.sinkStdout] : Option (List Stage)) ≠ none := by
  decide

/-- Claim C7 as amended: open-time failures are atomic in the sense that on
a raise no new pipeline is installed and the prior pipeline, if any, remains
the active one unchanged, while on success the installed pipeline is fully
constructed — the stream never holds a partially constructed pipeline.
Stated for both directions. -/
theorem c7_atomicity_amended (env : Env) (prior prior2 : Option (List Stage))
    (file file2 : List Char) (mode mode2 : Mode) (comp : List Char)
    (level : Int) :
    ((ostreamOpenFileState env prior file mode comp level).2.1.isSome = true →
        (ostreamOpenFileState env prior file mode comp level).1 = prior)
    ∧ (∀ p, (ostreamOpenFileState env prior file mode comp level).1 = some p →
        (ostreamOpenFileState env prior file mode comp level).2.1 = none →
        wellFormed p = true)
    ∧ ((istreamOpenState env prior2 file2 mode2).2.1.isSome = true →
        (istreamOpenState env prior2 file2 mode2).1 = prior2)
    ∧ (∀ p, (istreamOpenState env prior2 file2 mode2).1 = some p →
        (istreamOpenState env prior2 file2 mode2).2.1 = none →
        wellFormed p = true) := by
  refine ⟨?_, ?_, ?_, ?_⟩
  · intro hs
    unfold ostreamOpenFileState at hs ⊢
    cases ho : openOutFile env file mode comp level with
    | mk r ops =>
      cases r with
      | ok p => simp only [ho] at hs; cases hs
      | error e => simp only [ho]
  · intro p hp he
    unfold ostreamOpenFileState at hp he
    cases ho : openOutFile env file mode comp level with
    | mk r ops =>
      cases r with
      | ok q =>
        simp only [ho] at hp
        injection hp with h2
        subst h2
        exact openOutFile_ok_wellFormed env file mode comp level q ops ho
      | error e => simp only [ho] at he; cases he
  · intro hs
    unfold istreamOpenState at hs ⊢
    cases ho : openInFile env file2 mode2 with
    | mk r ops =>
      cases r with
      | ok p => simp only [ho] at hs; cases hs
      | error e => simp only [ho]
  · intro p hp he
    unfold istreamOpenState at hp he
    cases ho : openInFile env file2 mode2 with
    | mk r ops =>
      cases r with
      | ok q =>
        simp only [ho] at hp
        injection hp with h2
        subst h2
        exact openInFile_ok_wellFormed env file2 mode2 q ops ho
      | error e => simp only [ho] at he; cases he

/-- Witness for the amended C7: a failed open leaves the prior pipeline of a
bound stream in place, and a successful open installs a fully constructed
pipeline. -/
theorem c7_atomicity_amended_witness :
    (ostreamOpenFileState alwaysOpensEnv (some [Stage.sinkStdout])
        ("b.txt".toList) 0 ("nope".toList) 3).1 = some [Stage.sinkStdout]
    ∧ wellFormed [Stage.sinkFile ("a.txt".toList) 0] = true :=
  ⟨(c7_atomicity_amended alwaysOpensEnv (some [Stage.sinkStdout]) none
      ("b.txt".toList) ("x".toList) 0 0 ("nope".toList) 3).1 rfl,
   (c7_atomicity_amended alwaysOpensEnv none none ("a.txt".toList)
      ("x".toList) 0 0 [] (-1)).2.1
      [Stage.sinkFile ("a.txt".toList) 0] rfl rfl⟩

/-- Claim C8: in both directions the empty file name is normalized to the
null device, opened as a real file device, and the name `-` binds the
pipeline to the process standard stream with no file touched. -/
theorem c8_name_normalization (env : Env) (mode : Mode) (level : Int) :
    (env.fileSinkOpens ("/dev/null".toList) mode = true →
        openOutFile env [] mode [] level
          = (.ok [Stage.sinkFile ("/dev/null".toList) mode],
             [DevOp.openFileSink ("/dev/null".toList) mode]))
    ∧ openOutFile env ("-".toList) mode [] level
        = (.ok [Stage.sinkStdout], [DevOp.bindStdout])
    ∧ (env.fileSourceOpens ("/dev/null".toList) mode = true →
        openInFile env [] mode
          = (.ok [Stage.sourceFile ("/dev/null".toList) mode],
             [DevOp.openFileSource ("/dev/null".toList) mode]))
    ∧ openInFile env ("-".toList) mode
        = (.ok [Stage.sourceStdin], [DevOp.bindStdin]) := by
  refine ⟨fun h => ?_, rfl, fun h => ?_, rfl⟩
  · unfold openOutFile
    have hn : normalizeName ([] : List Char) = "/dev/null".toList := rfl
    rw [hn, h]
    rfl
  · unfold openInFile
    have hn : normalizeName ([] : List Char) = "/dev/null".toList := rfl
    rw [hn, h]
    rfl

/-- Witness for C8 in an environment where the null device opens. -/
theorem c8_name_normalization_witness :
    openOutFile alwaysOpensEnv [] 0 [] (-1)
      = (.ok [Stage.sinkFile ("/dev/null".toList) 0],
         [DevOp.openFileSink ("/dev/null".toList) 0])
    ∧ openInFile alwaysOpensEnv [] 0
      = (.ok [Stage.sourceFile ("/dev/null".toList) 0],
         [DevOp.openFileSource ("/dev/null".toList) 0]) :=
  ⟨(c8_name_normalization alwaysOpensEnv 0 (-1)).1 rfl,
   (c8_name_normalization alwaysOpensEnv 0 (-1)).2.2.1 rfl⟩

/-- Claim C9: for every name other than the empty name and `-` whose
underlying open fails, the input open throws the open-failed exception
synchronously, with a nonempty message containing both the caller-supplied
file name and the system error text. -/
theorem c9_open_failed_diagnostic (env : Env) (file : List Char) (mode : Mode)
    (h0 : file ≠ []) (h1 : file ≠ "-".toList)
    (h2 : env.fileSourceOpens file mode = false) :
    openInFile env file mode
      = (.error (.openFailed ("stream open failed for file ".toList ++ file
          ++ ": ".toList ++ env.errnoText)),
         [DevOp.openFileSource file mode])
    ∧ ("stream open failed for file ".toList ++ file
        ++ ": ".toList ++ env.errnoText) ≠ []
    ∧ (∃ s t, s ++ file ++ t
        = "stream open failed for file ".toList ++ file
          ++ ": ".toList ++ env.errnoText)
    ∧ (∃ s t, s ++ env.errnoText ++ t
        = "stream open failed for file ".toList ++ file
          ++ ": ".toList ++ env.errnoText) := by
  have hn := normalizeName_of_ne file h0
  have hb1 : (file == "-".toList) = false := beq_eq_false_iff_ne.mpr h1
  refine ⟨?_, ?_, ?_, ?_⟩
  · unfold openInFile
    rw [hn, hb1, h2]
    rfl
  · exact List.cons_ne_nil _ _
  · refine ⟨"stream open failed for file ".toList,
      ": ".toList ++ env.errnoText, ?_⟩
    simp [List.append_assoc]
  · refine ⟨"stream open failed for file ".toList ++ file ++ ": ".toList,
      [], ?_⟩
    simp [List.append_assoc]

/-- Witness for C9 at a nonexistent path in a failing environment. -/
theorem c9_open_failed_diagnostic_witness :
    openInFile neverOpensEnv ("nonexistent.txt".toList) 0
      = (.error (.openFailed
          ("stream open failed for file nonexistent.txt: No such file or directory".toList)),
         [DevOp.openFileSource ("nonexistent.txt".toList) 0]) :=
  (c9_open_failed_diagnostic neverOpensEnv ("nonexistent.txt".toList) 0
    (by decide) (by decide) rfl).1

/-- Claim C1: the direct descriptor overload runs the identical codec chain
as the file-name overload whenever an explicit compression name is given,
but the descriptor-based constructor drops its compression and level
arguments — its body calls `open(fd, mode)` — so a constructor call asking
for gzip at level 9 builds a pipeline with no compressor stage, unlike the
direct open with the same arguments. -/
theorem c1_fd_codec_construction :
    (∀ (comp : List Char) (level : Int) (file : List Char), comp ≠ [] →
        fdCodecStages comp level = outCodecStages comp file level)
    ∧ filterOstreamCtorFd 5 0 ("gz".toList) 9
        = (.ok [Stage.sinkFd 5 false], [DevOp.bindFd 5])
    ∧ openOutFd 5 0 ("gz".toList) 9
        = (.ok [Stage.compressor .gzip (some 9), Stage.sinkFd 5 false],
           [DevOp.bindFd 5]) := by
  refine ⟨fun comp level file hne => ?_, rfl, rfl⟩
  have hb : (comp == ([] : List Char)) = false := beq_eq_false_iff_ne.mpr hne
  unfold fdCodecStages outCodecStages
  simp only [hb, Bool.false_and, Bool.or_false]

/-- Witness for C1 at a concrete explicit compression name. -/
theorem c1_fd_codec_construction_witness :
    fdCodecStages ("bz2".toList) 4 = outCodecStages ("bz2".toList) ("whatever.xz".toList) 4 :=
  c1_fd_codec_construction.1 ("bz2".toList) 4 ("whatever.xz".toList) (by decide)

end FilterStreams
